import Mathlib

/-!
Verification of the solar-system simulation in
`src/27. Solar System Project/main.cpp`.

The embedding translates the program's data and per-frame operations into
Lean. Floating-point scalars are modelled exactly: the purely decimal
control state (timeSpeed, zoom) as rationals, and the quantities mixed with
the transcendental constant TWO_PI (phases, delta times, geometry) as real
numbers. The C++ geometry function flattens each (x, y) vertex into two
consecutive floats; the embedding keeps the same vertex sequence as a list
of pairs.
-/

namespace Solar

/-- Constant `CIRCLE_SEGMENTS = 512` from main.cpp line 22. -/
def CIRCLE_SEGMENTS : ℕ := 512

/-- Constant `TWO_PI = 2.0f * M_PI` from main.cpp line 23, modelled exactly. -/
noncomputable def TWO_PI : ℝ := 2 * Real.pi

/-- Struct `Planet` from main.cpp lines 50-56: immutable orbit radius, body
radius, angular speed and RGB color, plus the mutable current angle. -/
structure Planet where
  orbitRadius : ℝ
  radius : ℝ
  speed : ℝ
  color : ℝ × ℝ × ℝ
  currentAngle : ℝ

/-- The `planets` array initialised in main.cpp lines 111-120. -/
def initialPlanets : List Planet :=
  [ ⟨0.15, 0.02, 0.8, (0.6, 0.6, 0.6), 0⟩,
    ⟨0.25, 0.03, 0.6, (0.9, 0.7, 0.3), 0⟩,
    ⟨0.35, 0.035, 0.4, (0.15, 0.7, 0.5), 0⟩,
    ⟨0.45, 0.025, 0.3, (0.8, 0.3, 0.2), 0⟩,
    ⟨0.6, 0.04, 0.2, (0.9, 0.7, 0.5), 0⟩,
    ⟨0.75, 0.035, 0.15, (0.95, 0.9, 0.7), 0⟩,
    ⟨0.9, 0.03, 0.1, (0.5, 0.8, 0.9), 0⟩ ]

/-- Scale factor of the sun model matrix, main.cpp line 170. -/
def sunRenderRadius : ℝ := 0.08

/-- Color uniform uploaded for the sun, main.cpp line 172. -/
def sunColor : ℝ × ℝ × ℝ := (1.0, 0.9, 0.0)

/-- Key codes polled by `processInput` (GLFW constants). -/
def GLFW_KEY_ESCAPE : ℕ := 256

/-- Key code of the space bar. -/
def GLFW_KEY_SPACE : ℕ := 32

/-- Key code of the equals key. -/
def GLFW_KEY_EQUAL : ℕ := 61

/-- Key code of the minus key. -/
def GLFW_KEY_MINUS : ℕ := 45

/-- A keyboard snapshot, as observed through `glfwGetKey`: for each key code
whether that key is currently pressed. -/
structure Keys where
  pressed : ℕ → Bool

/-- Keyboard snapshot with no key pressed. -/
def keysNone : Keys := ⟨fun _ => false⟩

/-- Keyboard snapshot with every key pressed at once. -/
def keysAll : Keys := ⟨fun _ => true⟩

/-- Keyboard snapshot holding only the speed-up (equals) key. -/
def keysEqualOnly : Keys := ⟨fun n => n == GLFW_KEY_EQUAL⟩

/-- The mutable control state of the simulation: the globals `isPaused`
(main.cpp line 26), `timeSpeed` (line 27), `zoom` (line 28), the static
`spacePressed` flag local to `processInput` (line 291), and the window's
should-close flag set on the quit key (line 289). -/
structure Controls where
  isPaused : Bool
  timeSpeed : ℚ
  zoom : ℚ
  spacePressed : Bool
  shouldClose : Bool

/-- Initial control state: `isPaused = false`, `timeSpeed = 0.005`,
`zoom = 1.0`, `spacePressed = false`, window open. -/
def initialControls : Controls :=
  ⟨false, 0.005, 1, false, false⟩

/-- Function `processInput` from main.cpp lines 286-309: escape requests
close; a fresh space press toggles pause; the equals key moves `timeSpeed`
to `min(3.0, timeSpeed + 0.001)`; the minus key moves it to
`max(0.001, timeSpeed - 0.001)`. -/
def processInput (keys : Keys) (c : Controls) : Controls :=
  let c1 := if keys.pressed GLFW_KEY_ESCAPE then { c with shouldClose := true } else c
  let c2 :=
    if keys.pressed GLFW_KEY_SPACE then
      if c1.spacePressed then c1
      else { c1 with isPaused := !c1.isPaused, spacePressed := true }
    else { c1 with spacePressed := false }
  let c3 :=
    if keys.pressed GLFW_KEY_EQUAL then
      { c2 with timeSpeed := min 3 (c2.timeSpeed + 0.001) }
    else c2
  if keys.pressed GLFW_KEY_MINUS then
    { c3 with timeSpeed := max 0.001 (c3.timeSpeed - 0.001) }
  else c3

/-- Function `scroll_callback` from main.cpp lines 311-315:
`zoom -= yoffset * 0.05` followed by `zoom = max(0.95, min(2.0, zoom))`. -/
def scroll_callback (yoffset : ℚ) (zoom : ℚ) : ℚ :=
  let z := zoom - yoffset * 0.05
  max 0.95 (min 2 z)

/-- Per-frame delta time, main.cpp line 129: `deltaTime = frameTime - lastTime`
with no clamping of any kind. -/
def computeDeltaTime (frameTime lastTime : ℝ) : ℝ :=
  frameTime - lastTime

/-- Phase advance of one planet for one frame, main.cpp lines 139-143:
add `deltaTime * timeSpeed * speed` to the current angle, then subtract
`TWO_PI` once if the result is at least `TWO_PI`. -/
noncomputable def advanceAngle (deltaTime timeSpeed : ℝ) (p : Planet) : Planet :=
  let a := p.currentAngle + deltaTime * timeSpeed * p.speed
  if TWO_PI ≤ a then { p with currentAngle := a - TWO_PI }
  else { p with currentAngle := a }

/-- Function `createCircleVertices` from main.cpp lines 206-225: when
`filled`, the origin followed by `CIRCLE_SEGMENTS + 1` perimeter vertices at
angles `TWO_PI * i / CIRCLE_SEGMENTS`; otherwise the perimeter vertices
alone. The C++ pushes the x and y floats of each vertex consecutively; the
embedding keeps the identical vertex sequence as pairs. -/
noncomputable def createCircleVertices (radius : ℝ) (filled : Bool) : List (ℝ × ℝ) :=
  (if filled then [((0 : ℝ), (0 : ℝ))] else []) ++
    (List.range (CIRCLE_SEGMENTS + 1)).map (fun i : ℕ =>
      (radius * Real.cos (TWO_PI * (i : ℝ) / (CIRCLE_SEGMENTS : ℝ)),
       radius * Real.sin (TWO_PI * (i : ℝ) / (CIRCLE_SEGMENTS : ℝ))))

/-- Observable input to one iteration of the render loop: the keyboard
snapshot seen by `processInput`, the scroll-wheel y-offsets delivered during
`glfwPollEvents`, and the clock value returned by `glfwGetTime`. -/
structure FrameInput where
  keys : Keys
  scrolls : List ℚ
  frameTime : ℝ

/-- The simulation-relevant program state carried across loop iterations:
the global controls, the `planets` array, and `lastTime`. -/
structure SimState where
  controls : Controls
  planets : List Planet
  lastTime : ℝ

/-- State at entry of the render loop, main.cpp lines 111-122: initial
controls, the initial planet table, and `lastTime = glfwGetTime()` taken as
the parameter `t0`. -/
def initialSimState (t0 : ℝ) : SimState :=
  ⟨initialControls, initialPlanets, t0⟩

/-- One iteration of the render loop, main.cpp lines 125-193: compute the
delta time, run `processInput`, advance every planet when not paused, and
fold the scroll callbacks delivered by the event poll into the zoom. -/
noncomputable def frameStep (inp : FrameInput) (st : SimState) : SimState :=
  let deltaTime := computeDeltaTime inp.frameTime st.lastTime
  let c := processInput inp.keys st.controls
  let ps :=
    if c.isPaused then st.planets
    else st.planets.map (advanceAngle deltaTime (c.timeSpeed : ℝ))
  { controls := { c with zoom := inp.scrolls.foldl (fun z dy => scroll_callback dy z) c.zoom },
    planets := ps,
    lastTime := inp.frameTime }

/-- Iterated render loop over a list of frame inputs. -/
noncomputable def runFrames (inputs : List FrameInput) (st : SimState) : SimState :=
  inputs.foldl (fun t i => frameStep i t) st

/-- The list of per-frame delta times produced by the timing step over a
sequence of frames, starting from a given `lastTime`. -/
def dtList : List FrameInput → ℝ → List ℝ
  | [], _ => []
  | inp :: rest, last => computeDeltaTime inp.frameTime last :: dtList rest inp.frameTime

/-- Control states reachable from the initial globals by any interleaving of
`processInput` calls and scroll callbacks. -/
inductive ControlsReachable : Controls → Prop
  | init : ControlsReachable initialControls
  | step (k : Keys) {c : Controls} :
      ControlsReachable c → ControlsReachable (processInput k c)
  | scroll (dy : ℚ) {c : Controls} :
      ControlsReachable c → ControlsReachable { c with zoom := scroll_callback dy c.zoom }


/-- Unfolding of the filled-circle vertex list. -/
theorem createCircleVertices_true_eq (r : ℝ) :
    createCircleVertices r true =
      ((0 : ℝ), (0 : ℝ)) :: (List.range (CIRCLE_SEGMENTS + 1)).map (fun i : ℕ =>
        (r * Real.cos (TWO_PI * (i : ℝ) / (CIRCLE_SEGMENTS : ℝ)),
         r * Real.sin (TWO_PI * (i : ℝ) / (CIRCLE_SEGMENTS : ℝ)))) := by
  unfold createCircleVertices
  rw [if_pos rfl, List.singleton_append]

/-- Unfolding of the outline-circle vertex list. -/
theorem createCircleVertices_false_eq (r : ℝ) :
    createCircleVertices r false =
      (List.range (CIRCLE_SEGMENTS + 1)).map (fun i : ℕ =>
        (r * Real.cos (TWO_PI * (i : ℝ) / (CIRCLE_SEGMENTS : ℝ)),
         r * Real.sin (TWO_PI * (i : ℝ) / (CIRCLE_SEGMENTS : ℝ)))) := by
  unfold createCircleVertices
  rw [if_neg (by decide), List.nil_append]

/-- Advancing a planet never changes its angular speed. -/
theorem advanceAngle_speed (d ts : ℝ) (p : Planet) :
    (advanceAngle d ts p).speed = p.speed := by
  simp only [advanceAngle]
  split <;> rfl

/-- One advance adds the frame increment and subtracts `TWO_PI` at most once. -/
theorem advanceAngle_angle (d ts : ℝ) (p : Planet) :
    ∃ j : ℕ, j ≤ 1 ∧
      (advanceAngle d ts p).currentAngle =
        p.currentAngle + d * ts * p.speed - (j : ℝ) * TWO_PI := by
  simp only [advanceAngle]
  split
  · exact ⟨1, le_refl 1, by push_cast; ring⟩
  · exact ⟨0, Nat.zero_le 1, by push_cast; ring⟩

/-- C10: for every radius, the filled-circle vertex list is exactly the
origin prepended to the outline vertex list, so disk and ring share the
same perimeter coordinates. -/
theorem filled_eq_origin_cons_ring (r : ℝ) :
    createCircleVertices r true = ((0 : ℝ), (0 : ℝ)) :: createCircleVertices r false := by
  rw [createCircleVertices_true_eq, createCircleVertices_false_eq]

/-- C6: `CIRCLE_SEGMENTS = 512 ≥ 64`; the filled circle has
`CIRCLE_SEGMENTS + 2` vertices beginning with the origin, the outline has
`CIRCLE_SEGMENTS + 1`, and for every `i ≤ CIRCLE_SEGMENTS` the `i`-th
perimeter vertex of either list is
`(radius * cos (TWO_PI * i / CIRCLE_SEGMENTS), radius * sin (TWO_PI * i / CIRCLE_SEGMENTS))`. -/
theorem createCircleVertices_spec (r : ℝ) (i : ℕ) (hi : i ≤ CIRCLE_SEGMENTS) :
    64 ≤ CIRCLE_SEGMENTS ∧
    (createCircleVertices r true).length = CIRCLE_SEGMENTS + 2 ∧
    (createCircleVertices r false).length = CIRCLE_SEGMENTS + 1 ∧
    (createCircleVertices r true)[0]? = some ((0 : ℝ), (0 : ℝ)) ∧
    (createCircleVertices r true)[i + 1]? =
      some (r * Real.cos (TWO_PI * i / CIRCLE_SEGMENTS),
            r * Real.sin (TWO_PI * i / CIRCLE_SEGMENTS)) ∧
    (createCircleVertices r false)[i]? =
      some (r * Real.cos (TWO_PI * i / CIRCLE_SEGMENTS),
            r * Real.sin (TWO_PI * i / CIRCLE_SEGMENTS)) := by
  have hlt : i < CIRCLE_SEGMENTS + 1 := Nat.lt_succ_of_le hi
  refine ⟨by norm_num [CIRCLE_SEGMENTS], ?_, ?_, ?_, ?_, ?_⟩
  · rw [createCircleVertices_true_eq, List.length_cons, List.length_map, List.length_range]
  · rw [createCircleVertices_false_eq, List.length_map, List.length_range]
  · rw [createCircleVertices_true_eq, List.getElem?_cons_zero]
  · rw [createCircleVertices_true_eq, List.getElem?_cons_succ, List.getElem?_map,
        List.getElem?_range hlt]
    rfl
  · rw [createCircleVertices_false_eq, List.getElem?_map, List.getElem?_range hlt]
    rfl

/-- Witness for C6 at `r = 1`, `i = 0`. -/
theorem createCircleVertices_spec_witness :
    64 ≤ CIRCLE_SEGMENTS ∧
    (createCircleVertices 1 true).length = CIRCLE_SEGMENTS + 2 ∧
    (createCircleVertices 1 false).length = CIRCLE_SEGMENTS + 1 ∧
    (createCircleVertices 1 true)[0]? = some ((0 : ℝ), (0 : ℝ)) ∧
    (createCircleVertices 1 true)[0 + 1]? =
      some (1 * Real.cos (TWO_PI * (0 : ℕ) / CIRCLE_SEGMENTS),
            1 * Real.sin (TWO_PI * (0 : ℕ) / CIRCLE_SEGMENTS)) ∧
    (createCircleVertices 1 false)[(0 : ℕ)]? =
      some (1 * Real.cos (TWO_PI * (0 : ℕ) / CIRCLE_SEGMENTS),
            1 * Real.sin (TWO_PI * (0 : ℕ) / CIRCLE_SEGMENTS)) :=
  createCircleVertices_spec 1 0 (by decide)

/-- Projection of processInput: the zoom global is never written by it. -/
theorem processInput_zoom (k : Keys) (c : Controls) :
    (processInput k c).zoom = c.zoom := by
  simp only [processInput]
  split_ifs <;> rfl

/-- Bounds of the timeSpeed update performed by processInput. -/
theorem processInput_timeSpeed_bounds (k : Keys) (c : Controls)
    (h1 : 0.001 ≤ c.timeSpeed) (h2 : c.timeSpeed ≤ 3) :
    0.001 ≤ (processInput k c).timeSpeed ∧ (processInput k c).timeSpeed ≤ 3 := by
  have hmin1 : (0.001 : ℚ) ≤ min 3 (c.timeSpeed + 0.001) := le_min (by norm_num) (by linarith)
  have hmin2 : min 3 (c.timeSpeed + 0.001) ≤ 3 := min_le_left _ _
  have hmax1 : (0.001 : ℚ) ≤ max 0.001 (c.timeSpeed - 0.001) := le_max_left _ _
  have hmax2 : max 0.001 (c.timeSpeed - 0.001) ≤ 3 := max_le (by norm_num) (by linarith)
  have hmax3 : (0.001 : ℚ) ≤ max 0.001 (min 3 (c.timeSpeed + 0.001) - 0.001) := le_max_left _ _
  have hmax4 : max 0.001 (min 3 (c.timeSpeed + 0.001) - 0.001) ≤ 3 :=
    max_le (by norm_num) (by linarith)
  simp only [processInput]
  split_ifs <;> refine ⟨?_, ?_⟩ <;> (try dsimp only) <;> assumption

/-- Range of the clamp applied by the scroll callback, for any input zoom. -/
theorem scroll_callback_bounds (dy z : ℚ) :
    0.95 ≤ scroll_callback dy z ∧ scroll_callback dy z ≤ 2 := by
  unfold scroll_callback
  constructor
  · exact le_max_left 0.95 _
  · exact max_le (by norm_num) (min_le_left 2 _)

/-- Invariant of every reachable control state: timeSpeed stays inside
the interval from 0.001 to 3 and zoom inside the interval from 0.95 to 2. -/
theorem controlsReachable_bounds {c : Controls} (h : ControlsReachable c) :
    0.001 ≤ c.timeSpeed ∧ c.timeSpeed ≤ 3 ∧ 0.95 ≤ c.zoom ∧ c.zoom ≤ 2 := by
  induction h with
  | init => norm_num [initialControls]
  | step k h ih =>
      refine ⟨(processInput_timeSpeed_bounds _ _ ih.1 ih.2.1).1,
              (processInput_timeSpeed_bounds _ _ ih.1 ih.2.1).2, ?_, ?_⟩
      · rw [processInput_zoom]
        exact ih.2.2.1
      · rw [processInput_zoom]
        exact ih.2.2.2
  | scroll dy h ih =>
      exact ⟨ih.1, ih.2.1, (scroll_callback_bounds dy _).1, (scroll_callback_bounds dy _).2⟩

/-- Controls reachable after holding only the speed-up key for n frames:
the timeSpeed accumulates one thousandth per frame while below the cap. -/
theorem reachable_speedup (n : ℕ) (hn : n ≤ 2995) :
    ControlsReachable ⟨false, 0.005 + (n : ℚ) * 0.001, 1, false, false⟩ := by
  induction n with
  | zero =>
      have he : (⟨false, 0.005 + ((0 : ℕ) : ℚ) * 0.001, 1, false, false⟩ : Controls) =
          initialControls := by
        norm_num [initialControls]
      rw [he]
      exact ControlsReachable.init
  | succ m ih =>
      have hm : m ≤ 2995 := le_trans (Nat.le_succ m) hn
      have hstep := ControlsReachable.step keysEqualOnly (ih hm)
      have hcast : ((m : ℚ) + 1) ≤ 2995 := by
        have : ((m + 1 : ℕ) : ℚ) ≤ (2995 : ℕ) := Nat.cast_le.mpr hn
        push_cast at this
        linarith
      have he : processInput keysEqualOnly ⟨false, 0.005 + (m : ℚ) * 0.001, 1, false, false⟩ =
          ⟨false, 0.005 + ((m : ℕ) + 1 : ℚ) * 0.001, 1, false, false⟩ := by
        simp only [processInput, keysEqualOnly, GLFW_KEY_ESCAPE, GLFW_KEY_SPACE,
          GLFW_KEY_EQUAL, GLFW_KEY_MINUS]
        norm_num
        rw [min_eq_right (by linarith)]
        ring_nf
      rw [he] at hstep
      have he2 : ((m : ℕ) + 1 : ℚ) = ((m + 1 : ℕ) : ℚ) := by push_cast; ring
      rw [he2] at hstep
      exact hstep

/-- C2 counterexample: the control state with timeSpeed 1.005 is reachable
by holding the speed-up key for 1000 frames, and 1.005 exceeds the claimed
upper clamp 1.0. -/
theorem timeSpeed_exceeds_one :
    ControlsReachable ⟨false, 1.005, 1, false, false⟩ ∧ (1 : ℚ) < 1.005 := by
  constructor
  · have h := reachable_speedup 1000 (by norm_num)
    have he : (0.005 : ℚ) + ((1000 : ℕ) : ℚ) * 0.001 = 1.005 := by norm_num
    rw [he] at h
    exact h
  · norm_num

/-- C2 amended: timeSpeed is initialised to 0.005 and stays within the
interval from 0.001 to 3.0 across every reachable control state; the
speed-up key clamps at 3.0, not at 1.0. -/
theorem timeSpeed_bounds (c : Controls) (h : ControlsReachable c) :
    initialControls.timeSpeed = 0.005 ∧ 0.001 ≤ c.timeSpeed ∧ c.timeSpeed ≤ 3 :=
  ⟨rfl, (controlsReachable_bounds h).1, (controlsReachable_bounds h).2.1⟩

/-- Witness for the amended C2 at the initial control state. -/
theorem timeSpeed_bounds_witness :
    initialControls.timeSpeed = 0.005 ∧ 0.001 ≤ initialControls.timeSpeed ∧
      initialControls.timeSpeed ≤ 3 :=
  timeSpeed_bounds initialControls ControlsReachable.init

/-- C3 counterexample: a single scroll of dy = 1000 from the initial zoom
lands on the clamp value 0.95 rather than the claimed 0.1, and a scroll of
dy = -1000 lands on 2 rather than the claimed 5. -/
theorem zoom_clamp_counterexample :
    scroll_callback 1000 initialControls.zoom = 0.95 ∧ (0.95 : ℚ) ≠ 0.1 ∧
    scroll_callback (-1000) initialControls.zoom = 2 ∧ (2 : ℚ) ≠ 5 := by
  refine ⟨?_, by norm_num, ?_, by norm_num⟩
  · unfold scroll_callback initialControls
    norm_num
  · unfold scroll_callback initialControls
    norm_num

/-- C3 amended: zoom is initialised to 1.0 and every reachable control
state keeps it between the code clamps 0.95 and 2.0; from any reachable
state one scroll of dy = 1000 drives zoom to exactly 0.95 and one scroll of
dy = -1000 drives it to exactly 2.0. -/
theorem zoom_bounds (c : Controls) (h : ControlsReachable c) :
    initialControls.zoom = 1 ∧ 0.95 ≤ c.zoom ∧ c.zoom ≤ 2 ∧
    scroll_callback 1000 c.zoom = 0.95 ∧ scroll_callback (-1000) c.zoom = 2 := by
  obtain ⟨-, -, hz1, hz2⟩ := controlsReachable_bounds h
  refine ⟨rfl, hz1, hz2, ?_, ?_⟩
  · show max 0.95 (min 2 (c.zoom - 1000 * 0.05)) = 0.95
    rw [min_eq_right (by linarith), max_eq_left (by linarith)]
  · show max 0.95 (min 2 (c.zoom - (-1000) * 0.05)) = 2
    rw [min_eq_left (by linarith), max_eq_right (by norm_num)]

/-- Witness for the amended C3 at the initial control state. -/
theorem zoom_bounds_witness :
    initialControls.zoom = 1 ∧ 0.95 ≤ initialControls.zoom ∧ initialControls.zoom ≤ 2 ∧
    scroll_callback 1000 initialControls.zoom = 0.95 ∧
    scroll_callback (-1000) initialControls.zoom = 2 :=
  zoom_bounds initialControls ControlsReachable.init

/-- C7 counterexample: the first planet's color in the source is
(0.6, 0.6, 0.6), not the claimed (0.5, 0.5, 0.5), and the sun color is
(1.0, 0.9, 0.0), not the claimed (1.0, 1.0, 0.0). -/
theorem planet_colors_counterexample :
    (∃ p, initialPlanets[0]? = some p ∧ p.color ≠ ((0.5, 0.5, 0.5) : ℝ × ℝ × ℝ)) ∧
    sunColor ≠ ((1, 1, 0) : ℝ × ℝ × ℝ) := by
  refine ⟨⟨⟨0.15, 0.02, 0.8, (0.6, 0.6, 0.6), 0⟩, rfl, ?_⟩, ?_⟩
  · norm_num [Prod.ext_iff]
  · norm_num [sunColor, Prod.ext_iff]

/-- C7 amended: the planet table holds exactly seven bodies with the
claimed orbit radii, body radii and angular speeds, all starting at phase 0,
but with the colors of the source table; the sun is drawn at render radius
0.08 with color (1.0, 0.9, 0.0). -/
theorem bodyTable_values :
    initialPlanets.length = 7 ∧
    initialPlanets.map (fun p => p.orbitRadius) = [0.15, 0.25, 0.35, 0.45, 0.6, 0.75, 0.9] ∧
    initialPlanets.map (fun p => p.radius) = [0.02, 0.03, 0.035, 0.025, 0.04, 0.035, 0.03] ∧
    initialPlanets.map (fun p => p.speed) = [0.8, 0.6, 0.4, 0.3, 0.2, 0.15, 0.1] ∧
    initialPlanets.map (fun p => p.color) =
      [(0.6, 0.6, 0.6), (0.9, 0.7, 0.3), (0.15, 0.7, 0.5), (0.8, 0.3, 0.2),
       (0.9, 0.7, 0.5), (0.95, 0.9, 0.7), (0.5, 0.8, 0.9)] ∧
    initialPlanets.map (fun p => p.currentAngle) = [0, 0, 0, 0, 0, 0, 0] ∧
    sunRenderRadius = 0.08 ∧ sunColor = (1.0, 0.9, 0.0) :=
  ⟨rfl, rfl, rfl, rfl, rfl, rfl, rfl, rfl⟩

/-- processInput leaves the pause flag alone whenever space is not pressed. -/
theorem processInput_isPaused_of_no_space (k : Keys) (c : Controls)
    (hs : k.pressed GLFW_KEY_SPACE = false) :
    (processInput k c).isPaused = c.isPaused := by
  simp only [processInput, hs]
  split_ifs <;> first | rfl | simp_all

/-- processInput leaves timeSpeed alone when neither speed key is pressed. -/
theorem processInput_timeSpeed_of_no_speed_keys (k : Keys) (c : Controls)
    (he : k.pressed GLFW_KEY_EQUAL = false) (hm : k.pressed GLFW_KEY_MINUS = false) :
    (processInput k c).timeSpeed = c.timeSpeed := by
  simp only [processInput, he, hm]
  split_ifs <;> first | rfl | simp_all

/-- The frame step records the current clock value as the new lastTime. -/
theorem frameStep_lastTime (inp : FrameInput) (st : SimState) :
    (frameStep inp st).lastTime = inp.frameTime := rfl

/-- The pause flag after a frame is the one computed by processInput. -/
theorem frameStep_controls_isPaused (inp : FrameInput) (st : SimState) :
    (frameStep inp st).controls.isPaused = (processInput inp.keys st.controls).isPaused := rfl

/-- The timeSpeed after a frame is the one computed by processInput. -/
theorem frameStep_controls_timeSpeed (inp : FrameInput) (st : SimState) :
    (frameStep inp st).controls.timeSpeed = (processInput inp.keys st.controls).timeSpeed := rfl

/-- The zoom after a frame folds the delivered scroll events over the zoom
computed by processInput. -/
theorem frameStep_controls_zoom (inp : FrameInput) (st : SimState) :
    (frameStep inp st).controls.zoom =
      inp.scrolls.foldl (fun z dy => scroll_callback dy z)
        (processInput inp.keys st.controls).zoom := rfl

/-- In a paused frame the planets pass through unchanged. -/
theorem frameStep_planets_paused (inp : FrameInput) (st : SimState)
    (h : (processInput inp.keys st.controls).isPaused = true) :
    (frameStep inp st).planets = st.planets := by
  simp only [frameStep, h]
  rfl

/-- In a running frame every planet is advanced with the frame's delta time
and the post-input timeSpeed. -/
theorem frameStep_planets_run (inp : FrameInput) (st : SimState)
    (h : (processInput inp.keys st.controls).isPaused = false) :
    (frameStep inp st).planets =
      st.planets.map (advanceAngle (computeDeltaTime inp.frameTime st.lastTime)
        ((processInput inp.keys st.controls).timeSpeed : ℝ)) := by
  simp only [frameStep, h]
  rfl

/-- Unfolding runFrames on an empty input list. -/
theorem runFrames_nil (st : SimState) : runFrames [] st = st := rfl

/-- Unfolding runFrames on a first frame followed by the rest. -/
theorem runFrames_cons (inp : FrameInput) (rest : List FrameInput) (st : SimState) :
    runFrames (inp :: rest) st = runFrames rest (frameStep inp st) := rfl

/-- C5: while the pause flag is set and the pause key is not pressed, any
number of frames leaves every planet's phase untouched, whatever each
frame's delta time, speed-key and scroll input; and in any paused frame all
other steps still execute: timeSpeed and zoom still update through
processInput and the scroll callbacks, and the clock still advances. -/
theorem paused_preserves_phases :
    (∀ (inputs : List FrameInput) (st : SimState),
        st.controls.isPaused = true →
        (∀ inp ∈ inputs, inp.keys.pressed GLFW_KEY_SPACE = false) →
        (runFrames inputs st).planets = st.planets) ∧
    (∀ (inp : FrameInput) (st : SimState),
        (processInput inp.keys st.controls).isPaused = true →
        (frameStep inp st).planets = st.planets ∧
        (frameStep inp st).controls.timeSpeed = (processInput inp.keys st.controls).timeSpeed ∧
        (frameStep inp st).controls.zoom =
          inp.scrolls.foldl (fun z dy => scroll_callback dy z)
            (processInput inp.keys st.controls).zoom ∧
        (frameStep inp st).lastTime = inp.frameTime) := by
  constructor
  · intro inputs
    induction inputs with
    | nil =>
        intro st hp hs
        rfl
    | cons inp rest ih =>
        intro st hp hs
        have hsp : inp.keys.pressed GLFW_KEY_SPACE = false := hs inp (List.mem_cons_self inp rest)
        have hp2 : (processInput inp.keys st.controls).isPaused = true := by
          rw [processInput_isPaused_of_no_space inp.keys st.controls hsp]
          exact hp
        have h2 : (frameStep inp st).controls.isPaused = true := by
          rw [frameStep_controls_isPaused]
          exact hp2
        rw [runFrames_cons,
          ih (frameStep inp st) h2 (fun i hi => hs i (List.mem_cons_of_mem inp hi)),
          frameStep_planets_paused inp st hp2]
  · intro inp st h
    exact ⟨frameStep_planets_paused inp st h, rfl, rfl, rfl⟩

/-- Witness for C5: one key-free frame from a paused state with the initial
planet table changes no phase. -/
theorem paused_preserves_phases_witness :
    (runFrames [⟨keysNone, [], 1⟩]
        ⟨⟨true, 0.005, 1, false, false⟩, initialPlanets, 0⟩).planets =
      (⟨⟨true, 0.005, 1, false, false⟩, initialPlanets, 0⟩ : SimState).planets :=
  paused_preserves_phases.1 [⟨keysNone, [], 1⟩]
    ⟨⟨true, 0.005, 1, false, false⟩, initialPlanets, 0⟩ rfl
    (by
      intro i hi
      rw [List.mem_singleton] at hi
      subst hi
      rfl)

/-- Angle value of an advance whose incremented angle reaches TWO_PI. -/
theorem advanceAngle_currentAngle_of_ge (d ts : ℝ) (p : Planet)
    (h : TWO_PI ≤ p.currentAngle + d * ts * p.speed) :
    (advanceAngle d ts p).currentAngle = p.currentAngle + d * ts * p.speed - TWO_PI := by
  simp only [advanceAngle]
  rw [if_pos h]

/-- Angle value of an advance whose incremented angle stays below TWO_PI. -/
theorem advanceAngle_currentAngle_of_lt (d ts : ℝ) (p : Planet)
    (h : ¬ TWO_PI ≤ p.currentAngle + d * ts * p.speed) :
    (advanceAngle d ts p).currentAngle = p.currentAngle + d * ts * p.speed := by
  simp only [advanceAngle]
  rw [if_neg h]

/-- C1 counterexample: a key-free frame with delta time 10000 at the initial
timeSpeed 0.005 increments Mercury's phase by 40 radians; the single
subtraction of the code leaves the phase at 40 - TWO_PI, which is still at
least TWO_PI, violating the claimed range. -/
theorem phase_wrap_counterexample :
    ∃ q, (frameStep ⟨keysNone, [], 10000⟩ (initialSimState 0)).planets[0]? = some q ∧
      TWO_PI ≤ q.currentAngle := by
  have hpi : Real.pi < 3.15 := Real.pi_lt_d2
  refine ⟨advanceAngle (computeDeltaTime 10000 0) ((0.005 : ℚ) : ℝ)
    ⟨0.15, 0.02, 0.8, (0.6, 0.6, 0.6), 0⟩, rfl, ?_⟩
  have hsum : (⟨0.15, 0.02, 0.8, (0.6, 0.6, 0.6), 0⟩ : Planet).currentAngle +
      computeDeltaTime 10000 0 * ((0.005 : ℚ) : ℝ) *
        (⟨0.15, 0.02, 0.8, (0.6, 0.6, 0.6), 0⟩ : Planet).speed = 40 := by
    show (0 : ℝ) + (10000 - 0) * ((0.005 : ℚ) : ℝ) * 0.8 = 40
    push_cast
    norm_num
  have hcond : TWO_PI ≤ (⟨0.15, 0.02, 0.8, (0.6, 0.6, 0.6), 0⟩ : Planet).currentAngle +
      computeDeltaTime 10000 0 * ((0.005 : ℚ) : ℝ) *
        (⟨0.15, 0.02, 0.8, (0.6, 0.6, 0.6), 0⟩ : Planet).speed := by
    rw [hsum]
    unfold TWO_PI
    linarith
  rw [advanceAngle_currentAngle_of_ge _ _ _ hcond, hsum]
  unfold TWO_PI
  linarith

/-- C1 amended: with the code's single conditional subtraction, a frame
whose increment dt * timeSpeed * angularSpeed is non-negative and below
TWO_PI maps a phase inside the half-open range from 0 to TWO_PI back into
that range. -/
theorem phase_wrap_range (d ts : ℝ) (p : Planet)
    (h0 : 0 ≤ p.currentAngle) (h1 : p.currentAngle < TWO_PI)
    (hinc0 : 0 ≤ d * ts * p.speed) (hinc1 : d * ts * p.speed < TWO_PI) :
    0 ≤ (advanceAngle d ts p).currentAngle ∧ (advanceAngle d ts p).currentAngle < TWO_PI := by
  by_cases hc : TWO_PI ≤ p.currentAngle + d * ts * p.speed
  · rw [advanceAngle_currentAngle_of_ge d ts p hc]
    constructor <;> linarith
  · rw [advanceAngle_currentAngle_of_lt d ts p hc]
    push_neg at hc
    constructor <;> linarith

/-- Witness for the amended C1: one second at the initial timeSpeed keeps
Mercury's phase inside the range. -/
theorem phase_wrap_range_witness :
    0 ≤ (advanceAngle 1 0.005 ⟨0.15, 0.02, 0.8, (0.6, 0.6, 0.6), 0⟩).currentAngle ∧
    (advanceAngle 1 0.005 ⟨0.15, 0.02, 0.8, (0.6, 0.6, 0.6), 0⟩).currentAngle < TWO_PI :=
  phase_wrap_range 1 0.005 ⟨0.15, 0.02, 0.8, (0.6, 0.6, 0.6), 0⟩
    (le_refl 0)
    (by
      show (0 : ℝ) < TWO_PI
      unfold TWO_PI
      have := Real.pi_gt_three
      linarith)
    (by
      show (0 : ℝ) ≤ 1 * 0.005 * 0.8
      norm_num)
    (by
      show (1 : ℝ) * 0.005 * 0.8 < TWO_PI
      unfold TWO_PI
      have := Real.pi_gt_three
      nlinarith)

/-- The should-close flag after a frame is the one computed by processInput. -/
theorem frameStep_controls_shouldClose (inp : FrameInput) (st : SimState) :
    (frameStep inp st).controls.shouldClose =
      (processInput inp.keys st.controls).shouldClose := rfl

/-- processInput leaves the should-close flag alone when escape is not pressed. -/
theorem processInput_shouldClose_of_no_escape (k : Keys) (c : Controls)
    (h : k.pressed GLFW_KEY_ESCAPE = false) :
    (processInput k c).shouldClose = c.shouldClose := by
  simp only [processInput, h]
  split_ifs <;> first | rfl | simp_all

/-- C9 counterexample: with the clock reading 0 after a lastTime of 1 the
frame's delta time is -1, and the key-free frame advances Mercury's phase
backwards to a negative value, so the dt used to advance phases is not
clamped to be non-negative. -/
theorem negative_dt_counterexample :
    computeDeltaTime 0 1 < 0 ∧
    ∃ q, (frameStep ⟨keysNone, [], 0⟩ (initialSimState 1)).planets[0]? = some q ∧
      q.currentAngle < 0 := by
  constructor
  · unfold computeDeltaTime
    norm_num
  · refine ⟨advanceAngle (computeDeltaTime 0 1) ((0.005 : ℚ) : ℝ)
      ⟨0.15, 0.02, 0.8, (0.6, 0.6, 0.6), 0⟩, rfl, ?_⟩
    have hsum : (⟨0.15, 0.02, 0.8, (0.6, 0.6, 0.6), 0⟩ : Planet).currentAngle +
        computeDeltaTime 0 1 * ((0.005 : ℚ) : ℝ) *
          (⟨0.15, 0.02, 0.8, (0.6, 0.6, 0.6), 0⟩ : Planet).speed = -0.004 := by
      show (0 : ℝ) + (0 - 1) * ((0.005 : ℚ) : ℝ) * 0.8 = -0.004
      push_cast
      norm_num
    have hc : ¬ TWO_PI ≤ (⟨0.15, 0.02, 0.8, (0.6, 0.6, 0.6), 0⟩ : Planet).currentAngle +
        computeDeltaTime 0 1 * ((0.005 : ℚ) : ℝ) *
          (⟨0.15, 0.02, 0.8, (0.6, 0.6, 0.6), 0⟩ : Planet).speed := by
      rw [hsum, not_le]
      unfold TWO_PI
      have := Real.pi_gt_three
      linarith
    rw [advanceAngle_currentAngle_of_lt _ _ _ hc, hsum]
    norm_num

/-- C9 amended: the delta time is now minus lastFrameTime with no clamp, so
a backwards clock step yields a negative dt that is used as is; the loop
itself never requests termination from a frame anomaly: the should-close
flag changes only through the quit key. -/
theorem dt_unclamped (inp : FrameInput) (st : SimState)
    (hesc : inp.keys.pressed GLFW_KEY_ESCAPE = false) :
    computeDeltaTime inp.frameTime st.lastTime = inp.frameTime - st.lastTime ∧
    (inp.frameTime < st.lastTime → computeDeltaTime inp.frameTime st.lastTime < 0) ∧
    (frameStep inp st).controls.shouldClose = st.controls.shouldClose := by
  refine ⟨rfl, ?_, ?_⟩
  · intro h
    unfold computeDeltaTime
    linarith
  · rw [frameStep_controls_shouldClose]
    exact processInput_shouldClose_of_no_escape inp.keys st.controls hesc

/-- Witness for the amended C9 at a concrete backwards clock step. -/
theorem dt_unclamped_witness :
    computeDeltaTime 0 1 = 0 - 1 ∧
    ((0 : ℝ) < 1 → computeDeltaTime 0 1 < 0) ∧
    (frameStep ⟨keysNone, [], 0⟩ (initialSimState 1)).controls.shouldClose =
      (initialSimState 1).controls.shouldClose :=
  dt_unclamped ⟨keysNone, [], 0⟩ (initialSimState 1) rfl

/-- C8 counterexample: the program has no reset key. Starting from the
initial state, one key-free frame of one second gives Mercury a nonzero
phase; then a frame in which every key on the keyboard is pressed at once
(so in particular any candidate reset key) still leaves that phase nonzero:
no input resets phases to 0. -/
theorem reset_key_counterexample :
    ∃ q, (frameStep ⟨keysAll, [], 2⟩
        (frameStep ⟨keysNone, [], 1⟩ (initialSimState 0))).planets[0]? = some q ∧
      q.currentAngle ≠ 0 := by
  have hp2 : (processInput (⟨keysAll, [], 2⟩ : FrameInput).keys
      (frameStep ⟨keysNone, [], 1⟩ (initialSimState 0)).controls).isPaused = true := rfl
  rw [frameStep_planets_paused _ _ hp2]
  refine ⟨advanceAngle (computeDeltaTime 1 0) ((0.005 : ℚ) : ℝ)
    ⟨0.15, 0.02, 0.8, (0.6, 0.6, 0.6), 0⟩, rfl, ?_⟩
  have hsum : (⟨0.15, 0.02, 0.8, (0.6, 0.6, 0.6), 0⟩ : Planet).currentAngle +
      computeDeltaTime 1 0 * ((0.005 : ℚ) : ℝ) *
        (⟨0.15, 0.02, 0.8, (0.6, 0.6, 0.6), 0⟩ : Planet).speed = 0.004 := by
    show (0 : ℝ) + (1 - 0) * ((0.005 : ℚ) : ℝ) * 0.8 = 0.004
    push_cast
    norm_num
  have hc : ¬ TWO_PI ≤ (⟨0.15, 0.02, 0.8, (0.6, 0.6, 0.6), 0⟩ : Planet).currentAngle +
      computeDeltaTime 1 0 * ((0.005 : ℚ) : ℝ) *
        (⟨0.15, 0.02, 0.8, (0.6, 0.6, 0.6), 0⟩ : Planet).speed := by
    rw [hsum, not_le]
    unfold TWO_PI
    have := Real.pi_gt_three
    linarith
  rw [advanceAngle_currentAngle_of_lt _ _ _ hc, hsum]
  norm_num

/-- C8 amended: processInput implements no reset key; the only way a
planet's phase ever changes in a frame is the orbital advance itself. For
every frame input whatsoever, each planet's phase is either unchanged
(paused frame) or incremented by exactly dt * timeSpeed * angularSpeed with
at most one subtraction of TWO_PI; no input sets phases to 0. -/
theorem phases_only_advance (inp : FrameInput) (st : SimState) (i : ℕ) (p : Planet)
    (hp : st.planets[i]? = some p) :
    ∃ q, (frameStep inp st).planets[i]? = some q ∧ q.speed = p.speed ∧
      (q.currentAngle = p.currentAngle ∨
        ∃ j : ℕ, j ≤ 1 ∧
          q.currentAngle = p.currentAngle +
            computeDeltaTime inp.frameTime st.lastTime *
              ((processInput inp.keys st.controls).timeSpeed : ℝ) * p.speed -
            (j : ℝ) * TWO_PI) := by
  by_cases h : (processInput inp.keys st.controls).isPaused = true
  · refine ⟨p, ?_, rfl, Or.inl rfl⟩
    rw [frameStep_planets_paused inp st h]
    exact hp
  · have hf : (processInput inp.keys st.controls).isPaused = false := by
      cases hb : (processInput inp.keys st.controls).isPaused
      · rfl
      · exact absurd hb h
    rw [frameStep_planets_run inp st hf, List.getElem?_map, hp]
    exact ⟨advanceAngle (computeDeltaTime inp.frameTime st.lastTime)
        ((processInput inp.keys st.controls).timeSpeed : ℝ) p,
      rfl, advanceAngle_speed _ _ p, Or.inr (advanceAngle_angle _ _ p)⟩

/-- Witness for the amended C8: one key-free frame from the initial state,
Mercury at index 0. -/
theorem phases_only_advance_witness :
    ∃ q, (frameStep ⟨keysNone, [], 1⟩ (initialSimState 0)).planets[0]? = some q ∧
      q.speed = (⟨0.15, 0.02, 0.8, (0.6, 0.6, 0.6), 0⟩ : Planet).speed ∧
      (q.currentAngle = (⟨0.15, 0.02, 0.8, (0.6, 0.6, 0.6), 0⟩ : Planet).currentAngle ∨
        ∃ j : ℕ, j ≤ 1 ∧
          q.currentAngle = (⟨0.15, 0.02, 0.8, (0.6, 0.6, 0.6), 0⟩ : Planet).currentAngle +
            computeDeltaTime 1 0 *
              ((processInput keysNone (initialSimState 0).controls).timeSpeed : ℝ) *
              (⟨0.15, 0.02, 0.8, (0.6, 0.6, 0.6), 0⟩ : Planet).speed -
            (j : ℝ) * TWO_PI) :=
  phases_only_advance ⟨keysNone, [], 1⟩ (initialSimState 0) 0
    ⟨0.15, 0.02, 0.8, (0.6, 0.6, 0.6), 0⟩ rfl

/-- C4: with the pause, speed-up and slow-down keys untouched and the pause
flag clear, running any finite list of frames leaves each planet with speed
unchanged and phase congruent, modulo whole subtractions of TWO_PI, to its
initial phase plus T * timeSpeed * angularSpeed, where T is the sum of the
per-frame delta times of the run. -/
theorem phase_linearity (inputs : List FrameInput) (st : SimState)
    (hp : st.controls.isPaused = false)
    (hk : ∀ inp ∈ inputs, inp.keys.pressed GLFW_KEY_SPACE = false ∧
          inp.keys.pressed GLFW_KEY_EQUAL = false ∧
          inp.keys.pressed GLFW_KEY_MINUS = false) :
    List.Forall₂ (fun p q => q.speed = p.speed ∧ ∃ k : ℕ,
        q.currentAngle = p.currentAngle +
          (dtList inputs st.lastTime).sum * (st.controls.timeSpeed : ℝ) * p.speed -
          (k : ℝ) * TWO_PI)
      st.planets (runFrames inputs st).planets := by
  induction inputs generalizing st with
  | nil =>
      rw [runFrames_nil]
      refine List.forall₂_same.mpr ?_
      intro p hmem
      refine ⟨rfl, 0, ?_⟩
      simp [dtList]
  | cons inp rest ih =>
      obtain ⟨hs, he, hm⟩ := hk inp (List.mem_cons_self inp rest)
      have hk2 : ∀ i ∈ rest, i.keys.pressed GLFW_KEY_SPACE = false ∧
          i.keys.pressed GLFW_KEY_EQUAL = false ∧ i.keys.pressed GLFW_KEY_MINUS = false :=
        fun i hi => hk i (List.mem_cons_of_mem inp hi)
      have hpaused : (processInput inp.keys st.controls).isPaused = false := by
        rw [processInput_isPaused_of_no_space inp.keys st.controls hs]
        exact hp
      have hts : (processInput inp.keys st.controls).timeSpeed = st.controls.timeSpeed :=
        processInput_timeSpeed_of_no_speed_keys inp.keys st.controls he hm
      have hpf : (frameStep inp st).controls.isPaused = false := by
        rw [frameStep_controls_isPaused]
        exact hpaused
      have hplanets : (frameStep inp st).planets =
          st.planets.map (advanceAngle (computeDeltaTime inp.frameTime st.lastTime)
            (st.controls.timeSpeed : ℝ)) := by
        rw [frameStep_planets_run inp st hpaused, hts]
      have hlast : (frameStep inp st).lastTime = inp.frameTime := frameStep_lastTime inp st
      have hts2 : (frameStep inp st).controls.timeSpeed = st.controls.timeSpeed := by
        rw [frameStep_controls_timeSpeed]
        exact hts
      have H := ih (frameStep inp st) hpf hk2
      rw [hplanets, hlast, hts2] at H
      rw [runFrames_cons]
      rw [List.forall₂_map_left_iff] at H
      refine List.Forall₂.imp ?_ H
      intro p q hpq
      obtain ⟨hspeed, k, hangle⟩ := hpq
      have hs1 : (advanceAngle (computeDeltaTime inp.frameTime st.lastTime)
          (st.controls.timeSpeed : ℝ) p).speed = p.speed := advanceAngle_speed _ _ p
      obtain ⟨j, hj, hadv⟩ := advanceAngle_angle (computeDeltaTime inp.frameTime st.lastTime)
        (st.controls.timeSpeed : ℝ) p
      refine ⟨by rw [hspeed, hs1], j + k, ?_⟩
      rw [hangle, hadv, hs1]
      have hdt : (dtList (inp :: rest) st.lastTime).sum =
          computeDeltaTime inp.frameTime st.lastTime + (dtList rest inp.frameTime).sum := by
        simp [dtList]
      rw [hdt]
      push_cast
      ring

/-- Witness for C4: one key-free frame of one second from the initial state. -/
theorem phase_linearity_witness :
    List.Forall₂ (fun p q => q.speed = p.speed ∧ ∃ k : ℕ,
        q.currentAngle = p.currentAngle +
          (dtList [⟨keysNone, [], 1⟩] (initialSimState 0).lastTime).sum *
            ((initialSimState 0).controls.timeSpeed : ℝ) * p.speed -
          (k : ℝ) * TWO_PI)
      (initialSimState 0).planets
      (runFrames [⟨keysNone, [], 1⟩] (initialSimState 0)).planets :=
  phase_linearity [⟨keysNone, [], 1⟩] (initialSimState 0) rfl
    (by
      intro i hi
      rw [List.mem_singleton] at hi
      subst hi
      exact ⟨rfl, rfl, rfl⟩)

end Solar
